import Mathlib

/-!
Verification of the palette_generator repository against its specification.

The relevant source files are palette_generator/convert_colors.py and
palette_generator/make_theme.py.  Pure numeric code is embedded over the
rationals (Python floats are modelled exactly as rationals); hex strings are
modelled as lists of characters; code that raises is embedded with Option or
Except.  Two float operations are transcendental real powers
(var ** (1/2.4) in xyz_to_rgb's helper and (y/100) ** (1/3) in
xyz_to_cieluv); each is modelled as an uninterpreted function parameter
(gamma, cbrt) and every theorem below holds for every value of that
parameter; in every concrete evaluation the branch using it is not taken.
-/

/-- Python's built-in round: round half to even (banker's rounding),
used by the helper for xyz to rgb in convert_colors.py. -/
def pyround (q : ℚ) : ℤ :=
  let f : ℤ := ⌊q⌋
  let r : ℚ := q - (f : ℚ)
  if r < 1/2 then f
  else if 1/2 < r then f + 1
  else if f % 2 = 0 then f else f + 1

/-- Uppercase hexadecimal digit character for a value below 16; this is what
hex(c)[2:].upper() produces digit-wise in rgb_to_hex. -/
def hexDigit (n : ℕ) : Char :=
  if n < 10 then Char.ofNat (48 + n) else Char.ofNat (55 + n)

/-- Minimal-length uppercase hexadecimal digit string of a natural number:
models hex(c)[2:].upper() of Python for nonnegative c (hex(0) is "0x0",
so 0 maps to "0"). -/
def natToHex (n : ℕ) : List Char :=
  if _h : n < 16 then [hexDigit n]
  else natToHex (n / 16) ++ [hexDigit (n % 16)]
  termination_by n
  decreasing_by
    exact Nat.div_lt_self (by omega) (by omega)

/-- Python str.zfill(k): left-pad with zero characters to length k. -/
def zfill (k : ℕ) (s : List Char) : List Char :=
  List.replicate (k - s.length) '0' ++ s

/-- rgb_to_hex from convert_colors.py:
"#" + "".join(hex(c)[2:].upper().zfill(2) for c in rgb). -/
def rgb_to_hex (rgb : ℕ × ℕ × ℕ) : List Char :=
  '#' :: (zfill 2 (natToHex rgb.1) ++ zfill 2 (natToHex rgb.2.1)
    ++ zfill 2 (natToHex rgb.2.2))

/-- Value of one hexadecimal digit character, both cases accepted, as in
Python's int(s, 16); a non-digit yields none (int raises ValueError). -/
def hexDigitVal (c : Char) : Option ℕ :=
  if 48 ≤ c.toNat ∧ c.toNat ≤ 57 then some (c.toNat - 48)
  else if 65 ≤ c.toNat ∧ c.toNat ≤ 70 then some (c.toNat - 55)
  else if 97 ≤ c.toNat ∧ c.toNat ≤ 102 then some (c.toNat - 87)
  else none

/-- Accumulator loop of base-16 parsing. -/
def parseHexGo : List Char → ℕ → Option ℕ
  | [], acc => some acc
  | c :: cs, acc =>
    match hexDigitVal c with
    | none => none
    | some d => parseHexGo cs (16 * acc + d)

/-- Python's int(s, 16) on a string of hexadecimal digits: none on the empty
string or on a non-digit character (int raises ValueError there).  Sign,
whitespace and underscore forms accepted by int never arise from hex codes
and are outside the modelled domain. -/
def parseHex : List Char → Option ℕ
  | [] => none
  | s => parseHexGo s 0

/-- Python str.strip(mark): remove every leading and trailing occurrence of
the character mark. -/
def pstrip (mark : Char) (s : List Char) : List Char :=
  (((s.dropWhile (· == mark)).reverse).dropWhile (· == mark)).reverse

/-- hex_to_rgb from convert_colors.py: strip '#', then parse slices
[:2], [2:4] and [4:] in base 16; none models the ValueError raised on
malformed digits. -/
def hex_to_rgb (s : List Char) : Option (ℕ × ℕ × ℕ) :=
  let t := pstrip '#' s
  match parseHex (t.take 2), parseHex ((t.drop 2).take 2),
      parseHex (t.drop 4) with
  | some r, some g, some b => some (r, g, b)
  | _, _, _ => none

/-- The inner delt_channel helper of rgb_to_hsv in convert_colors.py. -/
def delt_channel (vmax delt vchannel : ℚ) : ℚ :=
  ((vmax - vchannel) / 6 + delt / 2) / delt

/-- rgb_to_hsv from convert_colors.py, embedded verbatim over the rationals:
channels are divided by 255, the gray case (delt = 0) returns (0, 0, vmax),
otherwise hue is assembled from the dominant channel and then adjusted by
the final line h = h + 1 if h < 0 else h - 1 of the source. -/
def rgb_to_hsv (rgb : ℤ × ℤ × ℤ) : ℚ × ℚ × ℚ :=
  let vr : ℚ := (rgb.1 : ℚ) / 255
  let vg : ℚ := (rgb.2.1 : ℚ) / 255
  let vb : ℚ := (rgb.2.2 : ℚ) / 255
  let vmin := min vr (min vg vb)
  let vmax := max vr (max vg vb)
  let delt := vmax - vmin
  if delt = 0 then (0, 0, vmax)
  else
    let s := delt / vmax
    let dr := delt_channel vmax delt vr
    let dg := delt_channel vmax delt vg
    let db := delt_channel vmax delt vb
    let h0 := if vr = vmax then db - dg
      else if vg = vmax then 1/3 + dr - db
      else 2/3 + dg - dr
    let h := if h0 < 0 then h0 + 1 else h0 - 1
    (h, s, vmax)

/-- Helper _var_rgb_prime of xyz_to_rgb in convert_colors.py.  The power
var ** (1 / 2.4) of the source is the uninterpreted parameter gamma (see the
file header); the rounded value is capped above by min(out, 255) exactly as
in the source — there is no lower cap. -/
def var_rgb_prime (gamma : ℚ → ℚ) (var : ℚ) : ℤ :=
  let out :=
    if var > 0.0031308 then pyround ((1.055 * gamma var - 0.055) * 255)
    else pyround (12.92 * var * 255)
  min out 255

/-- xyz_to_rgb from convert_colors.py: divide by 100, apply the fixed
XYZ-to-linear-sRGB matrix, then gamma-compress and round each channel with
var_rgb_prime. -/
def xyz_to_rgb (gamma : ℚ → ℚ) (xyz : ℚ × ℚ × ℚ) : ℤ × ℤ × ℤ :=
  let vx := xyz.1 / 100
  let vy := xyz.2.1 / 100
  let vz := xyz.2.2 / 100
  let vr := 3.2406 * vx - 1.5372 * vy - 0.4986 * vz
  let vg := -0.9689 * vx + 1.8758 * vy + 0.0415 * vz
  let vb := 0.0557 * vx - 0.2040 * vy + 1.0570 * vz
  (var_rgb_prime gamma vr, var_rgb_prime gamma vg, var_rgb_prime gamma vb)

/-- Intermediate u-prime of xyz_to_cieluv in convert_colors.py: the source
computes (4*x) / (x + 15*y + 3*z) inside try/except ZeroDivisionError and
falls back to 0; Python float division raises exactly when the denominator
is zero, so the embedding branches on that condition. -/
def luv_vu (x y z : ℚ) : ℚ :=
  if x + 15*y + 3*z = 0 then 0 else (4*x) / (x + 15*y + 3*z)

/-- Intermediate v-prime of xyz_to_cieluv in convert_colors.py, with the
same try/except ZeroDivisionError fallback to 0 as luv_vu. -/
def luv_vv (x y z : ℚ) : ℚ :=
  if x + 15*y + 3*z = 0 then 0 else (9*y) / (x + 15*y + 3*z)

/-- xyz_to_cieluv from convert_colors.py.  The cube root (y/100) ** (1/3)
of the bright branch is the uninterpreted parameter cbrt (see file header). -/
def xyz_to_cieluv (cbrt : ℚ → ℚ) (xyz : ℚ × ℚ × ℚ) : ℚ × ℚ × ℚ :=
  let x := xyz.1
  let y := xyz.2.1
  let z := xyz.2.2
  let vu := luv_vu x y z
  let vv := luv_vv x y z
  let vy := if y / 100 > 0.008856 then cbrt (y / 100)
    else 7.787 * (y / 100) + 16 / 116
  let cie_l := 116 * vy - 16
  (cie_l, 13 * cie_l * vu, 13 * cie_l * vv)

/-- Intermediate u-prime of cieluv_to_xyz in convert_colors.py:
vu = 0 if l == 0 else u / (13 * l). -/
def cieluv_vu (l u : ℚ) : ℚ :=
  if l = 0 then 0 else u / (13 * l)

/-- Intermediate v-prime of cieluv_to_xyz in convert_colors.py:
vv = 0 if l == 0 else v / (13 * l). -/
def cieluv_vv (l v : ℚ) : ℚ :=
  if l = 0 then 0 else v / (13 * l)

/-- cieluv_to_xyz from convert_colors.py; every operation here is exact
rational arithmetic (the power is the integer cube). -/
def cieluv_to_xyz (luv : ℚ × ℚ × ℚ) : ℚ × ℚ × ℚ :=
  let l := luv.1
  let u := luv.2.1
  let v := luv.2.2
  let vy0 := (l + 16) / 116
  let vy := if vy0 ^ 3 > 0.008856 then vy0 ^ 3 else (vy0 - 16 / 116) / 7.787
  let vu := cieluv_vu l u
  let vv := cieluv_vv l v
  let y := vy * 100
  let x := if vv = 0 then 0 else -(9 * y * vu) / ((vu - 4) * vv - vu * vv)
  let z := if vv = 0 then 0 else (9 * y - 15 * vv * y - vv * x) / (3 * vv)
  (x, y, z)

/-- One row of the Themer palette table of make_theme.py.  The columns
actually read by the embedded operations are kept: count (histogram weight),
sat and val (from the HSV columns) and the L, U, V coordinates.  The hex,
RGB, XYZ and hue columns are never consulted by the operations under proof
and are omitted. -/
structure ColorRow where
  count : ℤ
  sat : ℚ
  val : ℚ
  L : ℚ
  U : ℚ
  V : ℚ
deriving DecidableEq

/-- pandas Series.quantile(0.5) with the default linear interpolation:
sort ascending; the middle element for odd length, the mean of the two
middle elements for even length.  (On the empty list pandas yields NaN;
the tables under proof are never empty and this case is fixed at 0.) -/
def median (xs : List ℚ) : ℚ :=
  let s := List.insertionSort (· ≤ ·) xs
  let n := xs.length
  if n % 2 = 1 then s.getD (n / 2) 0
  else (s.getD (n / 2 - 1) 0 + s.getD (n / 2) 0) / 2

/-- The BRIGHT filter of Themer._get_subset in make_theme.py: rows whose
sat and val both exceed the whole table's 0.5 quantile of that column. -/
def bright_rows (colors : List ColorRow) : List ColorRow :=
  let ms := median (colors.map (·.sat))
  let mv := median (colors.map (·.val))
  colors.filter (fun r => decide (r.sat > ms) && decide (r.val > mv))

/-- The MUTED filter of Themer._get_subset in make_theme.py: rows whose
sat or val is strictly below the whole table's 0.5 quantile of that column. -/
def muted_rows (colors : List ColorRow) : List ColorRow :=
  let ms := median (colors.map (·.sat))
  let mv := median (colors.map (·.val))
  colors.filter (fun r => decide (r.sat < ms) || decide (r.val < mv))

/-- Themer._get_subset from make_theme.py: bright_mode 0 (_ALL) returns the
whole table, 1 (_BRIGHT) the bright filter, 2 (_MUTED) the muted filter, and
any other value raises ValueError — embedded as Except.error carrying the
rendering of the source's f-string message. -/
def get_subset (bright_mode : ℤ) (colors : List ColorRow) :
    Except String (List ColorRow) :=
  if bright_mode = 0 then Except.ok colors
  else if bright_mode = 1 then Except.ok (bright_rows colors)
  else if bright_mode = 2 then Except.ok (muted_rows colors)
  else Except.error ("Unexpected value for `bright_mode`: "
    ++ toString bright_mode)

/-- Squared Euclidean distance between the L, U, V coordinates of two rows.
scipy's euclidean is the square root of this; every comparison made by the
source is of the form sqrt d > c with c = 100 ≥ 0, which is equivalent to
d > c ^ 2, so the embedding works with squares throughout. -/
def luv_dist_sq (a b : ColorRow) : ℚ :=
  (a.L - b.L) ^ 2 + (a.U - b.U) ^ 2 + (a.V - b.V) ^ 2

/-- The _exclude helper of make_theme.py: keep the rows of subset whose LUV
Euclidean distance from ex is strictly greater than exclude_dist (default
100.0 in the source); stated on squares, see luv_dist_sq. -/
def exclude_rows (subset : List ColorRow) (ex : ColorRow)
    (exclude_dist : ℚ) : List ColorRow :=
  subset.filter (fun r => decide (luv_dist_sq r ex > exclude_dist ^ 2))

/-- One step of the scan behind pandas Series.idxmax: keep the current best
unless the new row is strictly greater, so the first occurrence of the
maximum wins. -/
def selBest (f : ColorRow → ℚ) (best x : ColorRow) : ColorRow :=
  if f best < f x then x else best

/-- pandas subset["sat"]-style idxmax followed by the .loc lookup of
make_theme.py, fused: the first row of the list attaining the maximal value
of f, or none on the empty list (idxmax raises there).  The source goes
through the row label and self.colors.loc; since subset rows are rows of
self.colors with their labels, that lookup returns the row itself. -/
def firstMaxBy (f : ColorRow → ℚ) : List ColorRow → Option ColorRow
  | [] => none
  | r :: rs => some (rs.foldl (selBest f) r)

/-- The accent branch of Themer._get_special in make_theme.py: take the
BRIGHT subset, exclude rows within distance 100 of the theme's bg row, and
return the row with maximal sat (first occurrence).  bg is the row stored
in the theme under "bg" (self._theme.loc["bg"]), passed here as a
parameter. -/
def accent_color (t : List ColorRow) (bg : ColorRow) : Option ColorRow :=
  firstMaxBy (·.sat) (exclude_rows (bright_rows t) bg 100)

/-- Index of the Themer._ref table of make_theme.py — the eight reference
hue names, in the order they are appended to the theme. -/
def ref_names : List String :=
  ["red", "yellow", "green", "cyan", "blue", "magenta", "white", "black"]

/-- The special modes appended to the theme by the Themer.theme property of
make_theme.py, in its exact order. -/
def special_names : List String :=
  ["common", "mean", "fg", "bg", "accent", "secondary"]

/-- The rows of Themer._theme as built by the theme property: one labelled
entry per reference hue (value from _get_mixed) followed by one per special
mode (value from _get_special).  The values are opaque here — the claim
under proof concerns only the labels. -/
def theme_rows {α : Type} (mixed special : String → α) : List (String × α) :=
  ref_names.map (fun n => (n, mixed n))
    ++ special_names.map (fun n => (n, special n))

/-- The published theme: self._theme["hex"].drop(["common", "mean"]) of
make_theme.py — every row whose label is neither "common" nor "mean". -/
def published_theme {α : Type} (mixed special : String → α) :
    List (String × α) :=
  (theme_rows mixed special).filter
    (fun p => decide (p.1 ≠ "common") && decide (p.1 ≠ "mean"))

/-- Three-row palette used only to witness the accent theorem: the first
row (the background) and a mid row are not bright; the third row is bright
and far from the background in LUV space. -/
def accentTable : List ColorRow :=
  [⟨3, 1/10, 1/10, 0, 0, 0⟩, ⟨2, 1/2, 1/2, 1, 1, 1⟩,
    ⟨1, 9/10, 9/10, 200, 0, 0⟩]

/-- The background row of accentTable (its first row, as in the source
where bg is the most common color). -/
def accentBg : ColorRow := ⟨3, 1/10, 1/10, 0, 0, 0⟩

/-- One-row table whose single row sits exactly at both medians; used only
to witness the subset-disjointness theorem. -/
def rowHalf : ColorRow := ⟨1, 1/2, 1/2, 0, 0, 0⟩

/-- The table holding rowHalf alone. -/
def tableHalf : List ColorRow := [rowHalf]

/-- A hexadecimal digit character decodes to its value. -/
theorem hexDigitVal_hexDigit (a : ℕ) (h : a < 16) :
    hexDigitVal (hexDigit a) = some a := by
  interval_cases a <;> decide

/-- A hexadecimal digit character is never the hash mark. -/
theorem hexDigit_ne_hash (a : ℕ) (h : a < 16) :
    (hexDigit a == '#') = false := by
  interval_cases a <;> decide

/-- For a byte value, the zero-padded hexadecimal encoding of rgb_to_hex is
exactly the two digit characters of the value. -/
theorem byte_hex (c : ℕ) (hc : c ≤ 255) :
    zfill 2 (natToHex c) = [hexDigit (c / 16), hexDigit (c % 16)] := by
  by_cases h : c < 16
  · rw [natToHex, dif_pos h, Nat.div_eq_of_lt h, Nat.mod_eq_of_lt h]
    have h0 : hexDigit 0 = '0' := by decide
    simp [zfill, h0]
  · have hdiv : c / 16 < 16 := Nat.div_lt_of_lt_mul (by omega)
    rw [natToHex, dif_neg h, natToHex, dif_pos hdiv]
    simp [zfill]

/-- Parsing the two digit characters of a byte recovers the byte. -/
theorem parse_byte (a b : ℕ) (ha : a < 16) (hb : b < 16) :
    parseHex [hexDigit a, hexDigit b] = some (16 * a + b) := by
  simp [parseHex, parseHexGo, hexDigitVal_hexDigit a ha,
    hexDigitVal_hexDigit b hb]

/-- dropWhile leaves a list alone when no element satisfies the
predicate. -/
theorem dropWhile_all_false (p : Char → Bool) (l : List Char)
    (h : ∀ c ∈ l, p c = false) : l.dropWhile p = l := by
  cases l with
  | nil => rfl
  | cons c cs => simp [List.dropWhile_cons, h c (List.mem_cons_self c cs)]

/-- Stripping the hash marks of a hex code with a leading hash and no hash
among its digits removes exactly the leading hash. -/
theorem pstrip_hash (l : List Char) (h : ∀ c ∈ l, (c == '#') = false) :
    pstrip '#' ('#' :: l) = l := by
  have h2 : ∀ c ∈ l.reverse, (c == '#') = false := fun c hc =>
    h c (List.mem_reverse.mp hc)
  simp only [pstrip, List.dropWhile_cons, beq_self_eq_true, if_true]
  rw [dropWhile_all_false _ l h, dropWhile_all_false _ _ h2,
    List.reverse_reverse]

/-- Taking the first two of six listed characters. -/
theorem take2_six (c1 c2 c3 c4 c5 c6 : Char) :
    List.take 2 [c1, c2, c3, c4, c5, c6] = [c1, c2] := rfl

/-- Dropping two of six listed characters. -/
theorem drop2_six (c1 c2 c3 c4 c5 c6 : Char) :
    List.drop 2 [c1, c2, c3, c4, c5, c6] = [c3, c4, c5, c6] := rfl

/-- Taking the first two of four listed characters. -/
theorem take2_four (c3 c4 c5 c6 : Char) :
    List.take 2 [c3, c4, c5, c6] = [c3, c4] := rfl

/-- Dropping four of six listed characters. -/
theorem drop4_six (c1 c2 c3 c4 c5 c6 : Char) :
    List.drop 4 [c1, c2, c3, c4, c5, c6] = [c5, c6] := rfl

/-- C3: for every RGB triple with integer channels in [0, 255], decoding
the hex encoding returns the triple exactly: rgb_to_hex zero-pads each
channel to two uppercase hexadecimal digits and hex_to_rgb inverts it. -/
theorem hex_round_trip (r g b : ℕ) (hr : r ≤ 255) (hg : g ≤ 255)
    (hb : b ≤ 255) :
    hex_to_rgb (rgb_to_hex (r, g, b)) = some (r, g, b) := by
  have hr16 : r / 16 < 16 := Nat.div_lt_of_lt_mul (by omega)
  have hg16 : g / 16 < 16 := Nat.div_lt_of_lt_mul (by omega)
  have hb16 : b / 16 < 16 := Nat.div_lt_of_lt_mul (by omega)
  have hrm : r % 16 < 16 := Nat.mod_lt _ (by omega)
  have hgm : g % 16 < 16 := Nat.mod_lt _ (by omega)
  have hbm : b % 16 < 16 := Nat.mod_lt _ (by omega)
  have expand : rgb_to_hex (r, g, b) =
      '#' :: [hexDigit (r / 16), hexDigit (r % 16), hexDigit (g / 16),
        hexDigit (g % 16), hexDigit (b / 16), hexDigit (b % 16)] := by
    simp [rgb_to_hex, byte_hex r hr, byte_hex g hg, byte_hex b hb]
  have hall : ∀ c ∈ [hexDigit (r / 16), hexDigit (r % 16),
      hexDigit (g / 16), hexDigit (g % 16), hexDigit (b / 16),
      hexDigit (b % 16)], (c == '#') = false := by
    intro c hc
    simp only [List.mem_cons, List.not_mem_nil, or_false] at hc
    rcases hc with rfl | rfl | rfl | rfl | rfl | rfl
    · exact hexDigit_ne_hash _ hr16
    · exact hexDigit_ne_hash _ hrm
    · exact hexDigit_ne_hash _ hg16
    · exact hexDigit_ne_hash _ hgm
    · exact hexDigit_ne_hash _ hb16
    · exact hexDigit_ne_hash _ hbm
  simp only [hex_to_rgb]
  rw [expand, pstrip_hash _ hall, take2_six, drop2_six, take2_four,
    drop4_six, parse_byte _ _ hr16 hrm, parse_byte _ _ hg16 hgm,
    parse_byte _ _ hb16 hbm]
  simp [Nat.div_add_mod]

/-- Witness for hex_round_trip at the concrete triple (171, 5, 240),
whose hex code is "#AB05F0". -/
theorem hex_round_trip_witness :
    hex_to_rgb (rgb_to_hex (171, 5, 240)) = some (171, 5, 240) :=
  hex_round_trip 171 5 240 (by decide) (by decide) (by decide)

/-- Helper for the amended claim C2: whatever the branch and whatever the
gamma function, the helper of xyz_to_rgb caps its result above by 255. -/
theorem var_rgb_prime_le (gamma : ℚ → ℚ) (var : ℚ) :
    var_rgb_prime gamma var ≤ 255 :=
  min_le_right _ 255

/-- C1: the claim states that for every RGB triple with integer channels in
[0, 255] the hue returned by rgb_to_hsv lies in [0, 1).  The code violates
this: at (255, 128, 0) the final adjustment line of rgb_to_hsv subtracts 1
from the nonnegative pre-wrap hue 64/765 and returns hue -701/765 < 0
(saturation and value are 1).  This theorem evaluates the code at that
failing input. -/
theorem rgb_to_hsv_hue_negative :
    rgb_to_hsv (255, 128, 0) = (-701/765, 1, 1) ∧ ((-701 : ℚ)/765) < 0 := by
  constructor
  · norm_num [rgb_to_hsv, delt_channel, min_def, max_def]
  · norm_num

/-- C2 counterexample: at the XYZ input (0, 1/10, 0) the first output
channel of xyz_to_rgb is -5, below 0, refuting the claim that every output
channel is clamped into [0, 255].  All three channels take the linear
branch of var_rgb_prime here, so the result is independent of the gamma
parameter, instantiated with the identity. -/
theorem xyz_to_rgb_negative_channel :
    xyz_to_rgb (fun q => q) (0, 1/10, 0) = (-5, 6, -1) ∧ ((-5 : ℤ) < 0) := by
  constructor
  · norm_num [xyz_to_rgb, var_rgb_prime, pyround, min_def, Int.floor_eq_iff]
  · norm_num

/-- C2 amended: each output channel of xyz_to_rgb is the rounded value
capped above by min(out, 255), so no channel ever exceeds 255; the source
has no lower cap, and channels can be negative, as the counterexample
above shows. -/
theorem xyz_to_rgb_le_255 (gamma : ℚ → ℚ) (xyz : ℚ × ℚ × ℚ) :
    (xyz_to_rgb gamma xyz).1 ≤ 255 ∧ (xyz_to_rgb gamma xyz).2.1 ≤ 255 ∧
      (xyz_to_rgb gamma xyz).2.2 ≤ 255 :=
  ⟨var_rgb_prime_le _ _, var_rgb_prime_le _ _, var_rgb_prime_le _ _⟩

/-- C6: on the black edge cases no division is attempted: when
X + 15Y + 3Z = 0 the intermediates u-prime and v-prime of xyz_to_cieluv
are 0 (the source catches ZeroDivisionError), and when L = 0 the
intermediates of cieluv_to_xyz are 0 (the source guards with a
conditional). -/
theorem luv_black_guards (x y z l u v : ℚ)
    (hd : x + 15*y + 3*z = 0) (hl : l = 0) :
    luv_vu x y z = 0 ∧ luv_vv x y z = 0 ∧
      cieluv_vu l u = 0 ∧ cieluv_vv l v = 0 := by
  refine ⟨?_, ?_, ?_, ?_⟩ <;>
    simp [luv_vu, luv_vv, cieluv_vu, cieluv_vv, hd, hl]

/-- Witness for luv_black_guards at the concrete black inputs
(x, y, z) = (3, 0, -1) (denominator 3 + 0 - 3 = 0) and
(l, u, v) = (0, 5, 7). -/
theorem luv_black_guards_witness :
    luv_vu 3 0 (-1) = 0 ∧ luv_vv 3 0 (-1) = 0 ∧
      cieluv_vu 0 5 = 0 ∧ cieluv_vv 0 7 = 0 :=
  luv_black_guards 3 0 (-1) 0 5 7 (by norm_num) rfl

/-- C7: xyz_to_cieluv maps the black input (0, 0, 0) to exactly (0, 0, 0),
for every value of the cube-root parameter (the branch using it is not
taken at y = 0). -/
theorem xyz_to_cieluv_black (cbrt : ℚ → ℚ) :
    xyz_to_cieluv cbrt (0, 0, 0) = (0, 0, 0) := by
  norm_num [xyz_to_cieluv, luv_vu, luv_vv]

/-- C8: the published theme mapping carries exactly the 12 keys red,
yellow, green, cyan, blue, magenta, white, black, fg, bg, accent,
secondary, in table order, for any values attached to the labels: the
intermediate common and mean rows are dropped by the filter. -/
theorem published_theme_keys {α : Type} (mixed special : String → α) :
    (published_theme mixed special).map Prod.fst =
      ["red", "yellow", "green", "cyan", "blue", "magenta", "white",
        "black", "fg", "bg", "accent", "secondary"] := rfl

/-- C9: for every mode value other than 0 (_ALL), 1 (_BRIGHT) and
2 (_MUTED), get_subset fails with the ValueError message of the source
instead of silently returning a subset. -/
theorem get_subset_invalid_mode (m : ℤ) (t : List ColorRow)
    (h0 : m ≠ 0) (h1 : m ≠ 1) (h2 : m ≠ 2) :
    get_subset m t =
      Except.error ("Unexpected value for `bright_mode`: " ++ toString m) := by
  simp [get_subset, h0, h1, h2]

/-- Witness for get_subset_invalid_mode at mode 3 on the empty table. -/
theorem get_subset_invalid_mode_witness :
    get_subset 3 [] =
      Except.error ("Unexpected value for `bright_mode`: "
        ++ toString (3 : ℤ)) :=
  get_subset_invalid_mode 3 [] (by decide) (by decide) (by decide)

/-- C10: the BRIGHT subset (sat and val strictly above the whole-table
medians) and the MUTED subset (sat or val strictly below) are disjoint, and
a row whose sat and val both equal their medians belongs to neither, so the
two subsets together need not cover the table. -/
theorem bright_muted_disjoint (t : List ColorRow) :
    (∀ r ∈ bright_rows t, r ∉ muted_rows t) ∧
    (∀ r ∈ t, r.sat = median (t.map (·.sat)) →
      r.val = median (t.map (·.val)) →
      r ∉ bright_rows t ∧ r ∉ muted_rows t) := by
  constructor
  · intro r hr hm
    simp only [bright_rows, muted_rows, List.mem_filter, Bool.and_eq_true,
      Bool.or_eq_true, decide_eq_true_eq] at hr hm
    rcases hr with ⟨-, hs, hv⟩
    rcases hm.2 with h | h
    · exact lt_asymm hs h
    · exact lt_asymm hv h
  · intro r _hr hs hv
    constructor
    · intro hmem
      simp only [bright_rows, List.mem_filter, Bool.and_eq_true,
        decide_eq_true_eq] at hmem
      exact lt_irrefl _ (hs ▸ hmem.2.1)
    · intro hmem
      simp only [muted_rows, List.mem_filter, Bool.or_eq_true,
        decide_eq_true_eq] at hmem
      rcases hmem.2 with h | h
      · exact lt_irrefl _ (hs ▸ h)
      · exact lt_irrefl _ (hv ▸ h)

/-- The scan behind firstMaxBy stays inside the scanned elements: the fold
of selBest over a list starting from a is either a or a member of the
list. -/
theorem foldl_selBest_mem (f : ColorRow → ℚ) (l : List ColorRow) :
    ∀ a : ColorRow, l.foldl (selBest f) a = a ∨ l.foldl (selBest f) a ∈ l := by
  induction l with
  | nil => intro a; exact Or.inl rfl
  | cons x xs ih =>
    intro a
    simp only [List.foldl_cons]
    rcases ih (selBest f a x) with h | h
    · rw [h]; unfold selBest; split
      · exact Or.inr (List.mem_cons_self x xs)
      · exact Or.inl rfl
    · exact Or.inr (List.mem_cons_of_mem x h)

/-- The fold of selBest never decreases the measure of the accumulator. -/
theorem le_foldl_selBest (f : ColorRow → ℚ) (l : List ColorRow) :
    ∀ a : ColorRow, f a ≤ f (l.foldl (selBest f) a) := by
  induction l with
  | nil => intro a; exact le_refl _
  | cons x xs ih =>
    intro a
    simp only [List.foldl_cons]
    refine le_trans ?_ (ih (selBest f a x))
    unfold selBest; split
    · exact le_of_lt (by assumption)
    · exact le_refl _

/-- Every scanned element measures at most the result of the fold of
selBest. -/
theorem mem_le_foldl_selBest (f : ColorRow → ℚ) (l : List ColorRow) :
    ∀ (a x : ColorRow), x ∈ l → f x ≤ f (l.foldl (selBest f) a) := by
  induction l with
  | nil => intro a x hx; cases hx
  | cons y ys ih =>
    intro a x hx
    simp only [List.foldl_cons]
    rcases List.mem_cons.mp hx with rfl | hx
    · refine le_trans ?_ (le_foldl_selBest f ys (selBest f a x))
      unfold selBest; split
      · exact le_refl _
      · exact le_of_not_lt (by assumption)
    · exact ih (selBest f a y) x hx

/-- C5: whenever the BRIGHT subset is non-empty after excluding the rows
within LUV distance 100 of bg, the accent color is some row r of that
excluded subset whose saturation is maximal there; consequently the LUV
distance from r to bg strictly exceeds 100 (stated on squares), so accent
is never an entry inside the exclusion radius of bg. -/
theorem accent_max_sat (t : List ColorRow) (bg : ColorRow)
    (h : exclude_rows (bright_rows t) bg 100 ≠ []) :
    ∃ r, accent_color t bg = some r ∧
      r ∈ exclude_rows (bright_rows t) bg 100 ∧
      (∀ x ∈ exclude_rows (bright_rows t) bg 100, x.sat ≤ r.sat) ∧
      luv_dist_sq r bg > 100 ^ 2 := by
  rcases he : exclude_rows (bright_rows t) bg 100 with _ | ⟨r0, rest⟩
  · exact absurd he h
  · have hmem : rest.foldl (selBest (·.sat)) r0 ∈ r0 :: rest := by
      rcases foldl_selBest_mem (·.sat) rest r0 with h' | h'
      · rw [h']; exact List.mem_cons_self r0 rest
      · exact List.mem_cons_of_mem r0 h'
    have hmem' : rest.foldl (selBest (·.sat)) r0 ∈
        exclude_rows (bright_rows t) bg 100 := by rw [he]; exact hmem
    refine ⟨rest.foldl (selBest (·.sat)) r0, ?_, hmem, ?_, ?_⟩
    · unfold accent_color firstMaxBy
      rw [he]
    · intro x hx
      rcases List.mem_cons.mp hx with rfl | hx'
      · exact le_foldl_selBest (·.sat) rest x
      · exact mem_le_foldl_selBest (·.sat) rest r0 x hx'
    · have := (List.mem_filter.mp hmem').2
      exact of_decide_eq_true this

/-- Witness for accent_max_sat on accentTable: the excluded bright subset
is the single far row, which is selected as accent. -/
theorem accent_max_sat_witness :
    ∃ r, accent_color accentTable accentBg = some r ∧
      r ∈ exclude_rows (bright_rows accentTable) accentBg 100 ∧
      (∀ x ∈ exclude_rows (bright_rows accentTable) accentBg 100,
        x.sat ≤ r.sat) ∧
      luv_dist_sq r accentBg > 100 ^ 2 :=
  accent_max_sat accentTable accentBg (by
    norm_num [accentTable, accentBg, exclude_rows, bright_rows, median,
      luv_dist_sq, List.insertionSort, List.orderedInsert])

/-- Witness for bright_muted_disjoint: the equal-median row of the one-row
table tableHalf is in neither subset. -/
theorem bright_muted_disjoint_witness :
    rowHalf ∉ bright_rows tableHalf ∧ rowHalf ∉ muted_rows tableHalf :=
  (bright_muted_disjoint tableHalf).2 rowHalf (by simp [tableHalf])
    (by norm_num [rowHalf, tableHalf, median, List.insertionSort,
      List.orderedInsert])
    (by norm_num [rowHalf, tableHalf, median, List.insertionSort,
      List.orderedInsert])
